import Mathlib

/-!
Verification development for the storefront-management backend
(team-orange).  The definitions below are a shallow embedding of the
multi-entity write-consistency layer: the product aggregate writer with
its association reconciler (ProductDBRepository.insertProduct /
updateProduct), the controllers that wrap those calls in a unit-of-work
scope (ProductController.post / update), and the store color
sub-resource manager (StoreController.createStore / update).

The relational database is modelled as lists of rows, one list per
table, plus an auto-increment counter used for generated ids.  The
generic CRUD repository operations (find / insertOne / update / delete)
are not part of the provided sources; they are modelled from the spec
(section 6): find returns the ordered list of matching rows, insertOne
appends a row with a fresh id and returns that id, delete removes the
matching rows, update patches the listed columns of the rows matching
the given id.

JavaScript failure modes are modelled explicitly: an explicit
`throw new Error(msg)` for a failed named lookup becomes
`Err.refNotFound msg` (the error kind the spec calls
ReferenceNotFoundError), other explicit throws become `Err.jsError msg`,
and a TypeError caused by reading a property of `undefined` (for example
indexing an empty result set and dereferencing the result) becomes
`Err.undefinedAccess msg`.
-/

/-- A reference row with a unique name: Brand, Category and Size rows all
have this shape (id plus unique name). -/
structure NamedRow where
  id : Nat
  name : String
deriving DecidableEq, Repr

/-- A product row.  Scalar columns follow the ProductType declaration of
the client (id, name, color, currentStock, reorderPoint, minimum, price,
discountPercentage, description, url_img) plus the foreign keys storeId
and brandId and the soft-delete status flag.  Prices are modelled as
naturals; no claim depends on numeric semantics. -/
structure ProductRow where
  id : Nat
  storeId : Nat
  brandId : Nat
  name : String
  color : String
  currentStock : Nat
  reorderPoint : Nat
  minimum : Nat
  price : Nat
  discountPercentage : Nat
  description : String
  url_img : String
  status : Nat
deriving DecidableEq, Repr

/-- A pure join row: ProductCategory and ProductSize rows are both
pairs of a product id and a reference id (categoryId resp. sizeId); the
spec gives them no independent identity. -/
structure JoinRow where
  productId : Nat
  refId : Nat
deriving DecidableEq, Repr

/-- A store row (scalar columns only; colors live in StoreColorRow). -/
structure StoreRow where
  id : Nat
  name : String
  managerId : Nat
  status : Nat
deriving DecidableEq, Repr

/-- The StoreColor type discriminator with its two fixed values. -/
inductive ColorType where
  | PRIMARY
  | SECONDARY
deriving DecidableEq, Repr

instance : BEq ColorType := ⟨fun a b => decide (a = b)⟩

/-- A StoreColor row: id, foreign key to Store, slot type, and the three
numeric color fields. -/
structure StoreColorRow where
  id : Nat
  storeId : Nat
  type : ColorType
  hue : Nat
  sat : Nat
  light : Nat
deriving DecidableEq, Repr

/-- The relational database state: one list of rows per table, plus the
auto-increment counter handed out as insertId by insertOne. -/
structure DB where
  brands : List NamedRow
  categories : List NamedRow
  sizes : List NamedRow
  products : List ProductRow
  productCategories : List JoinRow
  productSizes : List JoinRow
  stores : List StoreRow
  storeColors : List StoreColorRow
  nextId : Nat
deriving DecidableEq, Repr

/-- Error kinds raised by the embedded operations (see the header
comment for the correspondence with the JavaScript failure modes). -/
inductive Err where
  | refNotFound (msg : String)
  | jsError (msg : String)
  | undefinedAccess (msg : String)
deriving DecidableEq, Repr

/-- The incoming product payload (ProductInterface): scalar fields plus
the brand name and the category / size name lists; storeId is present in
the payload (updateProduct deletes it before writing the row). -/
structure ProductEntity where
  id : Nat
  storeId : Nat
  brand : String
  categories : List String
  sizes : List String
  name : String
  color : String
  currentStock : Nat
  reorderPoint : Nat
  minimum : Nat
  price : Nat
  discountPercentage : Nat
  description : String
  url_img : String
deriving DecidableEq, Repr

/-- JavaScript logical negation of an array value: an array is truthy
even when empty, so the negation is always false.  This models the dead
guard `if (!brandName) throw ...` in insertProduct. -/
def jsNot (_arr : List NamedRow) : Bool := false

/-- The position-indexed element comparison of the reconciler, starting
at a given index: models
`entity.xs.some((val, index) => val !== product.xs[index])`
(a comparison against a missing index, which yields undefined in
JavaScript, is modelled by the Option comparison). -/
def seqChangedFrom (persisted : List String) : Nat → List String → Bool
  | _, [] => false
  | i, v :: rest => (persisted[i]? != some v) || seqChangedFrom persisted (i + 1) rest

/-- The change-detection condition of the reconciler:
`entity.xs.length !== product.xs.length || entity.xs.some(...)`. -/
def seqChanged (desired persisted : List String) : Bool :=
  (desired.length != persisted.length) || seqChangedFrom persisted 0 desired

/-- Exact-name lookup in a reference table, taking the first match:
models `repo.find({ name })` followed by `response[0]`. -/
def resolveFirst (tbl : List NamedRow) (n : String) : Option NamedRow :=
  (tbl.filter (fun c => c.name == n)).head?

/-- Resolution of a whole list of names against a reference table; none
when any name matches zero rows. -/
def resolveAll (tbl : List NamedRow) : List String → Option (List Nat)
  | [] => some []
  | n :: rest =>
    match resolveFirst tbl n with
    | none => none
    | some c => (resolveAll tbl rest).map (fun ids => c.id :: ids)

/-- The insert loop shared by insertProduct and updateProduct: for each
desired name in order, find it in the reference table (`find({name})`),
throw the given lookup-failure message when zero rows match
(`if (response.length < 1) throw`), and append a join row referencing
the product id and `response[0].id`.  The reference table is fixed for
the whole loop since join-row inserts never touch reference tables.
The counter accumulates one write per insert. -/
def insertJoins (tbl : List NamedRow) (msg : String) (pid : Nat) :
    List String → List JoinRow → Nat → Except Err (List JoinRow × Nat)
  | [], rows, w => Except.ok (rows, w)
  | n :: rest, rows, w =>
    match tbl.filter (fun c => c.name == n) with
    | [] => Except.error (Err.refNotFound msg)
    | c :: _ => insertJoins tbl msg pid rest (rows ++ [{ productId := pid, refId := c.id }]) (w + 1)

/-- Modelled from the spec: the read-back of a product aggregate fetches
the persisted association names in stable insertion order
(productRepo.getById is not among the provided sources; spec section 4.2
step 1).  Each join row of the product is resolved to the name of the
first reference row carrying its id. -/
def namesVia (tbl : List NamedRow) (joins : List JoinRow) (pid : Nat) : List String :=
  (joins.filter (fun r => r.productId == pid)).filterMap
    (fun r => ((tbl.filter (fun c => c.id == r.refId)).head?).map (fun c => c.name))

/-- Persisted category names of a product, in join-row order. -/
def catNamesOf (db : DB) (pid : Nat) : List String :=
  namesVia db.categories db.productCategories pid

/-- Persisted size names of a product, in join-row order. -/
def sizeNamesOf (db : DB) (pid : Nat) : List String :=
  namesVia db.sizes db.productSizes pid

/-- The scalar column patch issued by updateProduct:
`update({ brandId, ...rest })` where rest is the payload minus
categories, sizes, brand, and the deleted storeId.  The columns not in
the payload (id key aside) keep their persisted value, in particular
storeId and status. -/
def applyScalarUpdate (r : ProductRow) (e : ProductEntity) (brandId : Nat) : ProductRow :=
  { r with
    brandId := brandId
    name := e.name
    color := e.color
    currentStock := e.currentStock
    reorderPoint := e.reorderPoint
    minimum := e.minimum
    price := e.price
    discountPercentage := e.discountPercentage
    description := e.description
    url_img := e.url_img }

/-- The generic row update applied to the product table: patch the rows
whose id matches the payload id. -/
def scalarApplied (db : DB) (e : ProductEntity) (brandId : Nat) : DB :=
  { db with
    products := db.products.map
      (fun r => if r.id == e.id then applyScalarUpdate r e brandId else r) }

/-- One association kind of the reconciler inside updateProduct: when
the desired sequence differs from the persisted one in length or at any
position, delete every join row of this product for this kind (counted
as one write) and re-insert one row per desired name; otherwise leave
the rows alone and issue zero writes. -/
def reconcileKind (tbl : List NamedRow) (msg : String) (pid : Nat)
    (desired persisted : List String) (rows : List JoinRow) :
    Except Err (List JoinRow × Nat) :=
  if seqChanged desired persisted then
    insertJoins tbl msg pid desired (rows.filter (fun r => r.productId != pid)) 1
  else
    Except.ok (rows, 0)

/-- Result of updateProduct: the database after the call plus the
number of join-table writes (deletes and inserts) issued per
association kind. -/
structure UpdRes where
  db : DB
  catWrites : Nat
  sizeWrites : Nat
deriving DecidableEq, Repr

/-- ProductDBRepository.updateProduct: resolve the brand name and
dereference the first match (`brandName[0].id`, an undefined access when
zero rows match — the source has no guard here), strip storeId from the
payload, patch the scalar row, re-read the persisted product
(`if (!product) throw new Error("Product not found")`), then run the
reconciler for categories and for sizes independently, both compared
against the single read-back taken before any join write. -/
def updateProduct (e : ProductEntity) (db : DB) : Except Err UpdRes :=
  match db.brands.filter (fun b => b.name == e.brand) with
  | [] => Except.error (Err.undefinedAccess "brandName[0].id")
  | b :: _ =>
    match ((scalarApplied db e b.id).products.filter (fun r => r.id == e.id)).head? with
    | none => Except.error (Err.jsError "Product not found")
    | some _ =>
      match reconcileKind db.categories "Invalid category" e.id
          e.categories (catNamesOf db e.id) db.productCategories with
      | Except.error er => Except.error er
      | Except.ok (pcs, wc) =>
        match reconcileKind db.sizes "Invalid size" e.id
            e.sizes (sizeNamesOf db e.id) db.productSizes with
        | Except.error er => Except.error er
        | Except.ok (pss, ws) =>
          Except.ok
            { db := { scalarApplied db e b.id with productCategories := pcs, productSizes := pss }
              catWrites := wc
              sizeWrites := ws }

/-- The product row built by insertProduct:
`insertOne({ ...rest, storeId: id, brandId })`; the id is the generated
insertId and status takes the column default 1 (active). -/
def mkProductRow (e : ProductEntity) (newId storeId brandId : Nat) : ProductRow :=
  { id := newId
    storeId := storeId
    brandId := brandId
    name := e.name
    color := e.color
    currentStock := e.currentStock
    reorderPoint := e.reorderPoint
    minimum := e.minimum
    price := e.price
    discountPercentage := e.discountPercentage
    description := e.description
    url_img := e.url_img
    status := 1 }

/-- ProductDBRepository.insertProduct: find the brand by name; the guard
`if (!brandName) throw new Error("No brand with that name")` never fires
because find returns an array and arrays are truthy, so a missing brand
instead fails on `brandName[0].id`.  Then insert the product row with
the resolved brandId and the caller-supplied storeId, check the
generated insertId for truthiness, and run the category and size insert
loops.  On success the new database and the insertId are returned; the
error paths discard the intermediate writes since every caller runs this
inside a unit-of-work scope that is rolled back on failure. -/
def insertProduct (e : ProductEntity) (storeId : Nat) (db : DB) : Except Err (DB × Nat) :=
  if jsNot (db.brands.filter (fun b => b.name == e.brand)) then
    Except.error (Err.refNotFound "No brand with that name")
  else
    match db.brands.filter (fun b => b.name == e.brand) with
    | [] => Except.error (Err.undefinedAccess "brandName[0].id")
    | b :: _ =>
      let newId := db.nextId
      let db1 :=
        { db with
          products := db.products ++ [mkProductRow e newId storeId b.id]
          nextId := db.nextId + 1 }
      if newId == 0 then Except.error (Err.jsError "Product creation failed")
      else
        match insertJoins db1.categories "Invalid category" newId e.categories
            db1.productCategories 0 with
        | Except.error er => Except.error er
        | Except.ok (pcs, _) =>
          match insertJoins db1.sizes "Invalid size" newId e.sizes
              db1.productSizes 0 with
          | Except.error er => Except.error er
          | Except.ok (pss, _) =>
            Except.ok ({ db1 with productCategories := pcs, productSizes := pss }, newId)

/-- Transaction calls recorded by the controllers. -/
inductive TxEvent where
  | beginTx
  | commitTx
  | rollbackTx
deriving DecidableEq, Repr

deriving instance DecidableEq for Except

/-- Result of a controller operation: outcome, final database state,
and the sequence of unit-of-work calls issued.  Modelled from the spec:
the UnitOfWork implementation is not among the provided sources;
beginTransaction snapshots the connection state, rollbackTransaction
restores the snapshot and closes the scope, commitTransaction keeps the
current state (a commit on an already closed scope changes nothing). -/
structure CtrlRes where
  out : Except Err Unit
  db : DB
  trace : List TxEvent
deriving DecidableEq, Repr

/-- The per-product loop of ProductController.post: insert each product
in order, aborting at the first failure. -/
def postLoop (storeId : Nat) : List ProductEntity → DB → Except Err DB
  | [], db => Except.ok db
  | p :: rest, db =>
    match insertProduct p storeId db with
    | Except.error er => Except.error er
    | Except.ok (db1, _) => postLoop storeId rest db1

/-- ProductController.post: resolve the caller-managed store
(`find({managerId})[0]`, an undefined access when the caller manages no
store), check the storeid for truthiness, then begin a transaction and
insert every product of the payload; on any failure the catch block
calls rollbackTransaction and then also commitTransaction before
re-throwing, so the error-path trace records both terminal calls and the
database reverts to the snapshot taken at begin. -/
def post (products : List ProductEntity) (idManager : Nat) (db : DB) : CtrlRes :=
  match db.stores.filter (fun s => s.managerId == idManager) with
  | [] => { out := Except.error (Err.undefinedAccess "storeRepo.find managerId [0].id"), db := db, trace := [] }
  | s :: _ =>
    if s.id == 0 then
      { out := Except.error (Err.jsError "Store not found"), db := db, trace := [] }
    else
      match postLoop s.id products db with
      | Except.error er =>
        { out := Except.error er, db := db, trace := [TxEvent.beginTx, TxEvent.rollbackTx, TxEvent.commitTx] }
      | Except.ok db1 =>
        { out := Except.ok (), db := db1, trace := [TxEvent.beginTx, TxEvent.commitTx] }

/-- ProductController.update: begin a transaction, run updateProduct,
and close the scope — commit on success, rollback followed by the
unconditional extra commit on failure (the read-back returned to the
HTTP layer after commit does not write and is omitted). -/
def updateCtrl (e : ProductEntity) (db : DB) : CtrlRes :=
  match updateProduct e db with
  | Except.error er =>
    { out := Except.error er, db := db, trace := [TxEvent.beginTx, TxEvent.rollbackTx, TxEvent.commitTx] }
  | Except.ok st =>
    { out := Except.ok (), db := st.db, trace := [TxEvent.beginTx, TxEvent.commitTx] }

/-- The hue / saturation / lightness triple of an incoming color
payload. -/
structure HSLPayload where
  hue : Nat
  sat : Nat
  light : Nat
deriving DecidableEq, Repr

/-- The colors object of a store-create payload; the client type
requires both slots. -/
structure ColorPair where
  primary : HSLPayload
  secondary : HSLPayload
deriving DecidableEq, Repr

/-- The colors object of a store-update payload: each slot is present
or absent, matching the truthiness checks `if (colors.primary)` and
`if (colors.secondary)` in StoreController.update. -/
structure ColorPatch where
  primary : Option HSLPayload
  secondary : Option HSLPayload
deriving DecidableEq, Repr

/-- A store-create payload: scalar fields plus the optional colors
object (`delete store.colors` keeps it out of the row insert). -/
structure StoreCreate where
  name : String
  managerId : Nat
  colors : Option ColorPair
deriving DecidableEq, Repr

/-- A store-update payload: the scalar field written by the row update
plus the optional colors object. -/
structure StoreUpdate where
  name : String
  colors : Option ColorPatch
deriving DecidableEq, Repr

/-- The fixed default color pair substituted when the store-create
payload omits colors. -/
def defaultColors : ColorPair :=
  { primary := { hue := 12, sat := 12, light := 12 }
    secondary := { hue := 240, sat := 240, light := 240 } }

/-- StoreController.createStore: insert the store row (colors removed
from the payload first), substitute the fixed default pair when the
payload carries no colors (`if (!colors)`), then insert exactly two
StoreColor rows tagged PRIMARY and SECONDARY foreign-keyed to the new
store id.  Returns the new database and the generated store id.  No
unit of work is opened on this path. -/
def createStore (p : StoreCreate) (db : DB) : DB × Nat :=
  let sid := db.nextId
  let db1 :=
    { db with
      stores := db.stores ++ [({ id := sid, name := p.name, managerId := p.managerId, status := 1 } : StoreRow)]
      nextId := sid + 1 }
  let colors := p.colors.getD defaultColors
  let db2 :=
    { db1 with
      storeColors := db1.storeColors ++
        [({ id := db1.nextId, storeId := sid, type := ColorType.PRIMARY,
            hue := colors.primary.hue, sat := colors.primary.sat, light := colors.primary.light } : StoreColorRow)]
      nextId := db1.nextId + 1 }
  let db3 :=
    { db2 with
      storeColors := db2.storeColors ++
        [({ id := db2.nextId, storeId := sid, type := ColorType.SECONDARY,
            hue := colors.secondary.hue, sat := colors.secondary.sat, light := colors.secondary.light } : StoreColorRow)]
      nextId := db2.nextId + 1 }
  (db3, sid)

/-- The in-place column update issued on a StoreColor row:
`storeColorRepo.update({ ...colors.slot, id })` patches the three color
columns of the rows carrying the given id; storeId and type are not in
the payload and keep their persisted values.  No row is inserted or
deleted. -/
def updateStoreColor (db : DB) (cid : Nat) (h : HSLPayload) : DB :=
  { db with
    storeColors := db.storeColors.map
      (fun c => if c.id == cid then { c with hue := h.hue, sat := h.sat, light := h.light } else c) }

/-- One conditional color-slot step of StoreController.update: when the
slot payload is present, look up the existing row of that type for the
store (`find({storeId, type})`) and dereference the first match — an
undefined access when zero rows match — then update it in place. -/
def colorStep (sid : Nat) (ty : ColorType) (msg : String) (h : Option HSLPayload) (db : DB) :
    Option Err × DB :=
  match h with
  | none => (none, db)
  | some hp =>
    match db.storeColors.filter (fun c => c.storeId == sid && c.type == ty) with
    | [] => (some (Err.undefinedAccess msg), db)
    | c :: _ => (none, updateStoreColor db c.id hp)

/-- Result of StoreController.update: outcome, final database state,
and the (always empty) list of unit-of-work calls — this controller
never opens a transaction, so every completed write persists even when
a later step throws. -/
structure StoreRes where
  err : Option Err
  db : DB
  trace : List TxEvent
deriving DecidableEq, Repr

/-- The scalar row write of StoreController.update:
`storeRepo.update({ ...store, id: idStore })` patches the scalar columns
of the store row matching the resolved id (colors and products were
deleted from the payload first). -/
def storeScalarApplied (db : DB) (sid : Nat) (p : StoreUpdate) : DB :=
  { db with
    stores := db.stores.map (fun t => if t.id == sid then { t with name := p.name } else t) }

/-- StoreController.update: resolve the caller-managed store
(`find({managerId})[0]`, an undefined access when the caller manages no
store), stash and delete the colors object, write the scalar store row,
then read `colors.primary` — an undefined access when the payload
omitted the colors object entirely, reached only after the scalar row
write persisted — and run the two conditional color-slot updates. -/
def updateStore (p : StoreUpdate) (idManager : Nat) (db : DB) : StoreRes :=
  match db.stores.filter (fun s => s.managerId == idManager) with
  | [] => { err := some (Err.undefinedAccess "storeRepo.find managerId [0].id"), db := db, trace := [] }
  | s :: _ =>
    match p.colors with
    | none => { err := some (Err.undefinedAccess "colors.primary"),
                db := storeScalarApplied db s.id p, trace := [] }
    | some cols =>
      match colorStep s.id ColorType.PRIMARY "storeColor PRIMARY [0].id" cols.primary
          (storeScalarApplied db s.id p) with
      | (some er, db2) => { err := some er, db := db2, trace := [] }
      | (none, db2) =>
        match colorStep s.id ColorType.SECONDARY "storeColor SECONDARY [0].id" cols.secondary db2 with
        | (er, db3) => { err := er, db := db3, trace := [] }

/-- A store write operation, for stating the color-row invariant over
arbitrary operation sequences. -/
inductive StoreOp where
  | screate (p : StoreCreate)
  | supdate (p : StoreUpdate) (idManager : Nat)

/-- The database state after one store operation (the state at the
point of the throw when the operation fails — no transaction covers
these paths). -/
def applyStoreOp (op : StoreOp) (db : DB) : DB :=
  match op with
  | StoreOp.screate p => (createStore p db).1
  | StoreOp.supdate p mid => (updateStore p mid db).db

/-- The database state after a sequence of store operations. -/
def runStoreOps : List StoreOp → DB → DB
  | [], db => db
  | op :: rest, db => runStoreOps rest (applyStoreOp op db)

/-- Number of StoreColor rows of a given slot type referencing a given
store. -/
def typeCount (db : DB) (sid : Nat) (t : ColorType) : Nat :=
  (db.storeColors.filter (fun c => c.storeId == sid && c.type == t)).length

/-- The store color invariant: every store has either no color row at
all or exactly one PRIMARY and exactly one SECONDARY row. -/
def ColorInv (db : DB) : Prop :=
  ∀ sid : Nat,
    (typeCount db sid ColorType.PRIMARY = 0 ∧ typeCount db sid ColorType.SECONDARY = 0) ∨
    (typeCount db sid ColorType.PRIMARY = 1 ∧ typeCount db sid ColorType.SECONDARY = 1)

/-- Freshness of the auto-increment counter with respect to the color
table: every persisted color row references a store id below the
counter, so a newly created store starts with zero color rows. -/
def ColorFresh (db : DB) : Prop :=
  ∀ c, c ∈ db.storeColors → c.storeId < db.nextId

/-! ## Helper lemmas -/

theorem seqChangedFrom_of_agree (p : List String) :
    ∀ (d : List String) (i : Nat), (∀ j, d[j]? = p[i + j]?) → seqChangedFrom p i d = false := by
  intro d
  induction d with
  | nil => intro i _; rfl
  | cons v rest ih =>
    intro i hagree
    have h0 : p[i]? = some v := by
      have := hagree 0
      simpa using this.symm
    have hrest : ∀ j, rest[j]? = p[(i + 1) + j]? := by
      intro j
      have := hagree (j + 1)
      simpa [Nat.add_comm, Nat.add_left_comm, Nat.add_assoc] using this
    simp [seqChangedFrom, h0, ih (i + 1) hrest]

/-- Comparing a sequence against itself reports no change. -/
theorem seqChanged_refl (d : List String) : seqChanged d d = false := by
  have h := seqChangedFrom_of_agree d d 0 (by intro j; simp)
  simp [seqChanged, h]

/-- In a table whose ids are pairwise distinct, filtering on the id of a
member row yields exactly that row. -/
theorem filter_id_unique (tbl : List NamedRow) (c : NamedRow)
    (hmem : c ∈ tbl) (hnd : (tbl.map (fun r => r.id)).Nodup) :
    tbl.filter (fun r => r.id == c.id) = [c] := by
  induction tbl with
  | nil => cases hmem
  | cons a rest ih =>
    rw [List.map_cons, List.nodup_cons] at hnd
    rcases List.mem_cons.mp hmem with rfl | hc
    · have hrest : rest.filter (fun r => r.id == c.id) = [] := by
        rw [List.filter_eq_nil_iff]
        intro b hb hbc
        have hbc2 : b.id = c.id := by simpa using hbc
        exact hnd.1 (List.mem_map.mpr ⟨b, hb, hbc2⟩)
      simp [List.filter_cons, hrest]
    · have hne : a.id ≠ c.id := by
        intro he
        exact hnd.1 (List.mem_map.mpr ⟨c, hc, he.symm⟩)
      have : (a.id == c.id) = false := by
        simpa using hne
      simp [List.filter_cons, this, ih hc hnd.2]

theorem insertJoins_of_resolveAll_some (tbl : List NamedRow) (msg : String) (pid : Nat) :
    ∀ (names : List String) (ids : List Nat) (rows : List JoinRow) (w : Nat),
      resolveAll tbl names = some ids →
      insertJoins tbl msg pid names rows w =
        Except.ok (rows ++ ids.map (fun i => { productId := pid, refId := i }), w + names.length) := by
  intro names
  induction names with
  | nil =>
    intro ids rows w h
    simp [resolveAll] at h
    simp [insertJoins, ← h]
  | cons n rest ih =>
    intro ids rows w h
    rw [resolveAll] at h
    rcases hr : resolveFirst tbl n with _ | c
    · rw [hr] at h; cases h
    · rw [hr] at h
      rcases ha : resolveAll tbl rest with _ | ids0
      · rw [ha] at h; cases h
      · rw [ha] at h
        simp only [Option.map, Option.some.injEq] at h
        subst h
        unfold resolveFirst at hr
        rcases hf : tbl.filter (fun x => x.name == n) with _ | ⟨c0, cs⟩
        · rw [hf] at hr; cases hr
        · rw [hf] at hr
          simp only [List.head?_cons, Option.some.injEq] at hr
          subst hr
          rw [insertJoins, hf]
          show insertJoins tbl msg pid rest (rows ++ [{ productId := pid, refId := c0.id }]) (w + 1) = _
          rw [ih ids0 _ _ ha]
          simp [Nat.add_comm, Nat.add_left_comm, Nat.add_assoc]

theorem insertJoins_of_resolveAll_none (tbl : List NamedRow) (msg : String) (pid : Nat) :
    ∀ (names : List String) (rows : List JoinRow) (w : Nat),
      resolveAll tbl names = none →
      insertJoins tbl msg pid names rows w = Except.error (Err.refNotFound msg) := by
  intro names
  induction names with
  | nil => intro rows w h; simp [resolveAll] at h
  | cons n rest ih =>
    intro rows w h
    rw [resolveAll] at h
    rcases hr : resolveFirst tbl n with _ | c
    · unfold resolveFirst at hr
      rcases hf : tbl.filter (fun x => x.name == n) with _ | ⟨c0, cs⟩
      · rw [insertJoins, hf]
      · rw [hf] at hr; cases hr
    · rw [hr] at h
      rcases ha : resolveAll tbl rest with _ | ids0
      · unfold resolveFirst at hr
        rcases hf : tbl.filter (fun x => x.name == n) with _ | ⟨c0, cs⟩
        · rw [hf] at hr; cases hr
        · rw [insertJoins, hf]
          exact ih _ _ ha
      · rw [ha] at h
        simp at h

theorem insertJoins_ok_elim (tbl : List NamedRow) (msg : String) (pid : Nat) :
    ∀ (names : List String) (rows rows1 : List JoinRow) (w w1 : Nat),
      insertJoins tbl msg pid names rows w = Except.ok (rows1, w1) →
      ∃ ids, resolveAll tbl names = some ids ∧
        rows1 = rows ++ ids.map (fun i => { productId := pid, refId := i }) ∧
        w1 = w + names.length := by
  intro names
  induction names with
  | nil =>
    intro rows rows1 w w1 h
    rw [insertJoins] at h
    simp only [Except.ok.injEq, Prod.mk.injEq] at h
    exact ⟨[], rfl, by simp [h.1.symm], by simp [h.2.symm]⟩
  | cons n rest ih =>
    intro rows rows1 w w1 h
    rw [insertJoins] at h
    rcases hf : tbl.filter (fun x => x.name == n) with _ | ⟨c0, cs⟩
    · rw [hf] at h; cases h
    · rw [hf] at h
      rcases ih _ _ _ _ h with ⟨ids0, ha, hrows, hw⟩
      refine ⟨c0.id :: ids0, ?_, ?_, ?_⟩
      · rw [resolveAll]
        unfold resolveFirst
        rw [hf]
        simp [ha]
      · simp [hrows]
      · simp [hw, Nat.add_comm, Nat.add_left_comm, Nat.add_assoc]

theorem resolveFirst_mem {tbl : List NamedRow} {n : String} {c : NamedRow}
    (h : resolveFirst tbl n = some c) : c ∈ tbl ∧ c.name = n := by
  unfold resolveFirst at h
  have hc : c ∈ tbl.filter (fun x => x.name == n) :=
    List.mem_of_mem_head? (Option.mem_def.mpr h)
  rcases List.mem_filter.mp hc with ⟨hmem, hname⟩
  exact ⟨hmem, by simpa using hname⟩

theorem filter_not_pid (pid : Nat) (joins : List JoinRow) :
    (joins.filter (fun r => r.productId != pid)).filter (fun r => r.productId == pid) = [] := by
  rw [List.filter_filter, List.filter_eq_nil_iff]
  intro a _
  cases hpa : a.productId == pid
  · simp [hpa]
  · simp [bne, hpa]

theorem filter_pid_map (pid : Nat) (ids : List Nat) :
    (ids.map (fun i => ({ productId := pid, refId := i } : JoinRow))).filter
      (fun r => r.productId == pid) =
    ids.map (fun i => ({ productId := pid, refId := i } : JoinRow)) := by
  induction ids with
  | nil => rfl
  | cons i rest ih => simp [List.filter_cons, ih]

theorem filterMap_names (tbl : List NamedRow) (pid : Nat)
    (hnd : (tbl.map (fun r => r.id)).Nodup) :
    ∀ (names : List String) (ids : List Nat),
      resolveAll tbl names = some ids →
      (ids.map (fun i => ({ productId := pid, refId := i } : JoinRow))).filterMap
        (fun r => ((tbl.filter (fun c => c.id == r.refId)).head?).map (fun c => c.name)) = names := by
  intro names
  induction names with
  | nil =>
    intro ids h
    simp only [resolveAll, Option.some.injEq] at h
    subst h
    rfl
  | cons n rest ih =>
    intro ids h
    rw [resolveAll] at h
    rcases hr : resolveFirst tbl n with _ | c
    · rw [hr] at h; cases h
    · rw [hr] at h
      rcases ha : resolveAll tbl rest with _ | ids0
      · rw [ha] at h; cases h
      · rw [ha] at h
        simp only [Option.map, Option.some.injEq] at h
        subst h
        rcases resolveFirst_mem hr with ⟨hmem, hname⟩
        have hone := filter_id_unique tbl c hmem hnd
        have hg : (((tbl.filter (fun x => x.id == ({ productId := pid, refId := c.id } : JoinRow).refId)).head?).map
            (fun x => x.name)) = some n := by
          simp only [hone]
          simp [hname]
        have hstep : List.filterMap
            (fun r => ((tbl.filter (fun c => c.id == r.refId)).head?).map (fun c => c.name))
            (({ productId := pid, refId := c.id } : JoinRow) ::
              ids0.map (fun i => ({ productId := pid, refId := i } : JoinRow)))
          = n :: List.filterMap
            (fun r => ((tbl.filter (fun c => c.id == r.refId)).head?).map (fun c => c.name))
            (ids0.map (fun i => ({ productId := pid, refId := i } : JoinRow))) :=
          List.filterMap_cons_some hg
        rw [List.map_cons, hstep, ih ids0 ha]

/-- Reading back the association names after a full rebuild of the join
rows returns exactly the desired names, provided the reference-table
ids are pairwise distinct. -/
theorem namesVia_rebuild (tbl : List NamedRow) (joins : List JoinRow) (pid : Nat)
    (hnd : (tbl.map (fun r => r.id)).Nodup)
    (names : List String) (ids : List Nat)
    (h : resolveAll tbl names = some ids) :
    namesVia tbl (joins.filter (fun r => r.productId != pid) ++
      ids.map (fun i => { productId := pid, refId := i })) pid = names := by
  unfold namesVia
  rw [List.filter_append, filter_not_pid, List.nil_append, filter_pid_map]
  exact filterMap_names tbl pid hnd names ids h

theorem updateProduct_ok_elim (e : ProductEntity) (db : DB) (st : UpdRes)
    (h : updateProduct e db = Except.ok st) :
    ∃ b bs pcs wc pss ws,
      db.brands.filter (fun x => x.name == e.brand) = b :: bs ∧
      ((scalarApplied db e b.id).products.filter (fun r => r.id == e.id)).head? ≠ none ∧
      reconcileKind db.categories "Invalid category" e.id e.categories (catNamesOf db e.id)
        db.productCategories = Except.ok (pcs, wc) ∧
      reconcileKind db.sizes "Invalid size" e.id e.sizes (sizeNamesOf db e.id)
        db.productSizes = Except.ok (pss, ws) ∧
      st = { db := { scalarApplied db e b.id with productCategories := pcs, productSizes := pss },
             catWrites := wc, sizeWrites := ws } := by
  unfold updateProduct at h
  split at h
  · cases h
  next b bs hb =>
    split at h
    · cases h
    next r hp =>
      split at h
      · cases h
      next pcs wc hc =>
        split at h
        · cases h
        next pss ws hs =>
          simp only [Except.ok.injEq] at h
          exact ⟨b, bs, pcs, wc, pss, ws, hb, by simp [hp], hc, hs, h.symm⟩

theorem reconcileKind_unchanged (tbl : List NamedRow) (msg : String) (pid : Nat)
    (desired persisted : List String) (rows : List JoinRow)
    (h : seqChanged desired persisted = false) :
    reconcileKind tbl msg pid desired persisted rows = Except.ok (rows, 0) := by
  simp [reconcileKind, h]

theorem reconcileKind_ok_elim (tbl : List NamedRow) (msg : String) (pid : Nat)
    (desired persisted : List String) (rows rows1 : List JoinRow) (w : Nat)
    (h : reconcileKind tbl msg pid desired persisted rows = Except.ok (rows1, w)) :
    (seqChanged desired persisted = false ∧ rows1 = rows ∧ w = 0) ∨
    (seqChanged desired persisted = true ∧
      ∃ ids, resolveAll tbl desired = some ids ∧
        rows1 = rows.filter (fun r => r.productId != pid) ++
          ids.map (fun i => { productId := pid, refId := i }) ∧
        w = 1 + desired.length) := by
  unfold reconcileKind at h
  rcases hch : seqChanged desired persisted with _ | _
  · rw [hch] at h
    simp only [if_neg Bool.false_ne_true, Except.ok.injEq, Prod.mk.injEq] at h
    exact Or.inl ⟨rfl, h.1.symm, h.2.symm⟩
  · rw [hch] at h
    simp only [if_pos rfl] at h
    rcases insertJoins_ok_elim tbl msg pid desired _ _ _ _ h with ⟨ids, ha, hrows, hw⟩
    exact Or.inr ⟨rfl, ids, ha, hrows, by simpa [Nat.add_comm] using hw⟩

theorem scalarMap_id (e : ProductEntity) (bid : Nat) (r : ProductRow) :
    (if r.id == e.id then applyScalarUpdate r e bid else r).id = r.id := by
  cases h : r.id == e.id <;> simp [h, applyScalarUpdate]

theorem applyScalarUpdate_idem (e : ProductEntity) (bid : Nat) (r : ProductRow) :
    applyScalarUpdate (applyScalarUpdate r e bid) e bid = applyScalarUpdate r e bid := rfl

theorem scalarFun_idem (e : ProductEntity) (bid : Nat) (r : ProductRow) :
    (fun x => if x.id == e.id then applyScalarUpdate x e bid else x)
      ((fun x => if x.id == e.id then applyScalarUpdate x e bid else x) r) =
    (fun x => if x.id == e.id then applyScalarUpdate x e bid else x) r := by
  cases h : r.id == e.id
  · simp [h]
  · simp only [h, if_pos]
    have hid : (applyScalarUpdate r e bid).id == e.id := by
      have : (applyScalarUpdate r e bid).id = r.id := rfl
      rw [this]; exact h ▸ h
    simp [hid, applyScalarUpdate_idem]

theorem scalarMap_idem (e : ProductEntity) (bid : Nat) (l : List ProductRow) :
    (l.map (fun x => if x.id == e.id then applyScalarUpdate x e bid else x)).map
      (fun x => if x.id == e.id then applyScalarUpdate x e bid else x) =
    l.map (fun x => if x.id == e.id then applyScalarUpdate x e bid else x) := by
  rw [List.map_map]
  apply List.map_congr_left
  intro r _
  exact scalarFun_idem e bid r

theorem filter_id_scalarApplied (db : DB) (e : ProductEntity) (bid : Nat) (pid : Nat) :
    (scalarApplied db e bid).products.filter (fun r => r.id == pid) =
      (db.products.filter (fun r => r.id == pid)).map
        (fun r => if r.id == e.id then applyScalarUpdate r e bid else r) := by
  simp only [scalarApplied]
  rw [List.filter_map]
  congr 1
  rw [List.filter_congr]
  intro r _
  by_cases hid : r.id = e.id
  · simp [Function.comp, hid, applyScalarUpdate]
  · simp [Function.comp, hid]

theorem updateProduct_intro (e : ProductEntity) (db : DB) (b : NamedRow) (bs : List NamedRow)
    (pcs pss : List JoinRow) (wc ws : Nat)
    (hb : db.brands.filter (fun x => x.name == e.brand) = b :: bs)
    (hp : ((scalarApplied db e b.id).products.filter (fun r => r.id == e.id)).head? ≠ none)
    (hc : reconcileKind db.categories "Invalid category" e.id e.categories (catNamesOf db e.id)
      db.productCategories = Except.ok (pcs, wc))
    (hs : reconcileKind db.sizes "Invalid size" e.id e.sizes (sizeNamesOf db e.id)
      db.productSizes = Except.ok (pss, ws)) :
    updateProduct e db = Except.ok
      { db := { scalarApplied db e b.id with productCategories := pcs, productSizes := pss },
        catWrites := wc, sizeWrites := ws } := by
  rcases hh : ((scalarApplied db e b.id).products.filter (fun r => r.id == e.id)).head? with _ | r
  · exact absurd hh hp
  · simp only [updateProduct, hb, hh, hc, hs]

/-- Running one reconciliation kind a second time against the join rows
it just produced issues zero writes and keeps the rows, provided the
reference-table ids are pairwise distinct. -/
theorem reconcile_again (tbl : List NamedRow) (msg : String) (pid : Nat)
    (desired : List String) (old new1 : List JoinRow) (w : Nat)
    (hnd : (tbl.map (fun r => r.id)).Nodup)
    (h : reconcileKind tbl msg pid desired (namesVia tbl old pid) old = Except.ok (new1, w)) :
    reconcileKind tbl msg pid desired (namesVia tbl new1 pid) new1 = Except.ok (new1, 0) := by
  rcases reconcileKind_ok_elim tbl msg pid desired _ old new1 w h with
    ⟨hch, hrows, _⟩ | ⟨hch, ids, hres, hrows, _⟩
  · subst hrows
    exact reconcileKind_unchanged tbl msg pid desired _ _ hch
  · subst hrows
    rw [namesVia_rebuild tbl old pid hnd desired ids hres]
    exact reconcileKind_unchanged tbl msg pid desired desired _ (seqChanged_refl desired)

theorem reconcileKind_changed (tbl : List NamedRow) (msg : String) (pid : Nat)
    (desired persisted : List String) (rows : List JoinRow)
    (h : seqChanged desired persisted = true) :
    reconcileKind tbl msg pid desired persisted rows =
      insertJoins tbl msg pid desired (rows.filter (fun r => r.productId != pid)) 1 := by
  simp [reconcileKind, h]

/-! ## Claim theorems -/

/-- C1: for every product update whose desired category-name
(respectively size-name) list differs from the persisted list in length
or at any position, the reconciler deletes all existing join rows for
that product for that association kind and then, for each desired name
in order, resolves the name to an id by exact-name lookup — raising an
error when the lookup returns zero rows — and inserts one new join row
referencing the product id and the resolved id. -/
theorem c1_update_rebuilds_changed_associations (e : ProductEntity) (db : DB) :
    ((∀ st : UpdRes, updateProduct e db = Except.ok st →
        seqChanged e.categories (catNamesOf db e.id) = true →
        ∃ ids, resolveAll db.categories e.categories = some ids ∧
          st.db.productCategories = db.productCategories.filter (fun r => r.productId != e.id) ++
            ids.map (fun i => { productId := e.id, refId := i })) ∧
     (∀ st : UpdRes, updateProduct e db = Except.ok st →
        seqChanged e.sizes (sizeNamesOf db e.id) = true →
        ∃ ids, resolveAll db.sizes e.sizes = some ids ∧
          st.db.productSizes = db.productSizes.filter (fun r => r.productId != e.id) ++
            ids.map (fun i => { productId := e.id, refId := i }))) ∧
    (db.brands.filter (fun x => x.name == e.brand) ≠ [] →
     db.products.filter (fun r => r.id == e.id) ≠ [] →
     seqChanged e.categories (catNamesOf db e.id) = true →
     resolveAll db.categories e.categories = none →
     updateProduct e db = Except.error (Err.refNotFound "Invalid category")) := by
  refine ⟨⟨?_, ?_⟩, ?_⟩
  · intro st h hch
    obtain ⟨b, bs, pcs, wc, pss, ws, hb, hp, hc, hs, hst⟩ := updateProduct_ok_elim e db st h
    subst hst
    rcases reconcileKind_ok_elim _ _ _ _ _ _ _ _ hc with ⟨hch2, _, _⟩ | ⟨_, ids, hres, hrows, _⟩
    · rw [hch] at hch2; cases hch2
    · exact ⟨ids, hres, hrows⟩
  · intro st h hch
    obtain ⟨b, bs, pcs, wc, pss, ws, hb, hp, hc, hs, hst⟩ := updateProduct_ok_elim e db st h
    subst hst
    rcases reconcileKind_ok_elim _ _ _ _ _ _ _ _ hs with ⟨hch2, _, _⟩ | ⟨_, ids, hres, hrows, _⟩
    · rw [hch] at hch2; cases hch2
    · exact ⟨ids, hres, hrows⟩
  · intro hbne hpne hch hnone
    rcases hbf : db.brands.filter (fun x => x.name == e.brand) with _ | ⟨b, bs⟩
    · exact absurd hbf hbne
    rcases hh : ((scalarApplied db e b.id).products.filter (fun r => r.id == e.id)).head? with _ | r
    · exfalso
      rw [List.head?_eq_none_iff, filter_id_scalarApplied, List.map_eq_nil_iff] at hh
      exact hpne hh
    · have hrk : reconcileKind db.categories "Invalid category" e.id e.categories
          (catNamesOf db e.id) db.productCategories =
          Except.error (Err.refNotFound "Invalid category") := by
        rw [reconcileKind_changed _ _ _ _ _ _ hch]
        exact insertJoins_of_resolveAll_none db.categories "Invalid category" e.id
          e.categories _ _ hnone
      simp only [updateProduct, hbf, hh, hrk]

/-- C2: reconciliation is idempotent — after a successful updateProduct,
running updateProduct again with the same payload returns the same
database unchanged and issues zero join-table delete or insert writes
for both association kinds (the reference tables are assumed to have
pairwise distinct ids, the primary-key invariant of the database). -/
theorem c2_reconciliation_idempotent (e : ProductEntity) (db : DB) (st : UpdRes)
    (hcats : (db.categories.map (fun r => r.id)).Nodup)
    (hsizes : (db.sizes.map (fun r => r.id)).Nodup)
    (h1 : updateProduct e db = Except.ok st) :
    updateProduct e st.db = Except.ok { db := st.db, catWrites := 0, sizeWrites := 0 } := by
  obtain ⟨b, bs, pcs, wc, pss, ws, hb, hp, hc, hs, hst⟩ := updateProduct_ok_elim e db st h1
  subst hst
  have hprodeq : (scalarApplied ({ scalarApplied db e b.id with
      productCategories := pcs, productSizes := pss } : DB) e b.id).products =
      (scalarApplied db e b.id).products := by
    simp only [scalarApplied]
    exact scalarMap_idem e b.id db.products
  have hp2 : ((scalarApplied ({ scalarApplied db e b.id with
      productCategories := pcs, productSizes := pss } : DB) e b.id).products.filter
        (fun r => r.id == e.id)).head? ≠ none := by
    rw [hprodeq]
    exact hp
  have hc2 : reconcileKind db.categories "Invalid category" e.id e.categories
      (namesVia db.categories pcs e.id) pcs = Except.ok (pcs, 0) :=
    reconcile_again db.categories "Invalid category" e.id e.categories
      db.productCategories pcs wc hcats hc
  have hs2 : reconcileKind db.sizes "Invalid size" e.id e.sizes
      (namesVia db.sizes pss e.id) pss = Except.ok (pss, 0) :=
    reconcile_again db.sizes "Invalid size" e.id e.sizes
      db.productSizes pss ws hsizes hs
  have hmain := updateProduct_intro e ({ scalarApplied db e b.id with
      productCategories := pcs, productSizes := pss } : DB) b bs pcs pss 0 0 hb hp2 hc2 hs2
  have hD : ({ scalarApplied ({ scalarApplied db e b.id with
      productCategories := pcs, productSizes := pss } : DB) e b.id with
      productCategories := pcs, productSizes := pss } : DB) =
      ({ scalarApplied db e b.id with productCategories := pcs, productSizes := pss } : DB) := by
    simp only [scalarApplied]
    rw [scalarMap_idem]
  rw [hD] at hmain
  exact hmain

/-- C5: an update payload carrying a storeId different from the
persisted row never changes the store column: the update succeeds (the
foreign store id is silently dropped, not rejected) and the resulting
row keeps the old storeId and status while every scalar field of the
payload is applied. -/
theorem c5_storeid_stripped_scalars_applied (e : ProductEntity) (db : DB) (st : UpdRes)
    (r : ProductRow) (h : updateProduct e db = Except.ok st)
    (hr : r ∈ db.products) (hid : r.id = e.id) (_hdiff : e.storeId ≠ r.storeId) :
    ∃ rr, rr ∈ st.db.products ∧ rr.id = e.id ∧ rr.storeId = r.storeId ∧ rr.status = r.status ∧
      rr.name = e.name ∧ rr.color = e.color ∧ rr.currentStock = e.currentStock ∧
      rr.reorderPoint = e.reorderPoint ∧ rr.minimum = e.minimum ∧ rr.price = e.price ∧
      rr.discountPercentage = e.discountPercentage ∧ rr.description = e.description ∧
      rr.url_img = e.url_img := by
  obtain ⟨b, bs, pcs, wc, pss, ws, hb, hp, hc, hs, hst⟩ := updateProduct_ok_elim e db st h
  subst hst
  have hmem := List.mem_map_of_mem
    (fun x => if x.id == e.id then applyScalarUpdate x e b.id else x) hr
  have hfr : (fun x => if x.id == e.id then applyScalarUpdate x e b.id else x) r =
      applyScalarUpdate r e b.id := by
    simp [hid]
  rw [hfr] at hmem
  exact ⟨applyScalarUpdate r e b.id, hmem, hid, rfl, rfl, rfl, rfl, rfl, rfl, rfl, rfl, rfl,
    rfl, rfl⟩

theorem post_db_of_error (ps : List ProductEntity) (mid : Nat) (db : DB) (er : Err)
    (h : (post ps mid db).out = Except.error er) : (post ps mid db).db = db := by
  rcases hsf : db.stores.filter (fun s => s.managerId == mid) with _ | ⟨s, ss⟩
  · simp only [post, hsf]
  · rcases hsid : s.id == 0 with _ | _
    · rcases hloop : postLoop s.id ps db with er2 | db2
      · simp only [post, hsf, hsid, hloop, Bool.false_eq_true, if_false]
      · simp only [post, hsf, hsid, hloop, Bool.false_eq_true, if_false] at h
        cases h
    · simp only [post, hsf, hsid, if_true]

/-- C3: product creation is atomic — whenever the create endpoint
propagates an error (a failed brand, category or size resolution partway
through included), the database afterwards equals the database before
the call, because every write ran inside the unit-of-work scope that the
catch block rolls back; in particular no product row and no join row
exists for any id at or above the auto-increment counter (the ids a
product inserted by this call would have received). -/
theorem c3_create_error_leaves_no_rows (ps : List ProductEntity) (mid : Nat) (db : DB) (er : Err)
    (hprods : ∀ r, r ∈ db.products → r.id < db.nextId)
    (hcats : ∀ r, r ∈ db.productCategories → r.productId < db.nextId)
    (hsizes : ∀ r, r ∈ db.productSizes → r.productId < db.nextId)
    (h : (post ps mid db).out = Except.error er) :
    (post ps mid db).db = db ∧
    ∀ pid, db.nextId ≤ pid →
      (post ps mid db).db.products.filter (fun r => r.id == pid) = [] ∧
      (post ps mid db).db.productCategories.filter (fun r => r.productId == pid) = [] ∧
      (post ps mid db).db.productSizes.filter (fun r => r.productId == pid) = [] := by
  have hdb := post_db_of_error ps mid db er h
  refine ⟨hdb, ?_⟩
  intro pid hpid
  rw [hdb]
  refine ⟨?_, ?_, ?_⟩
  · rw [List.filter_eq_nil_iff]
    intro r hr
    have h1 := hprods r hr
    simp only [beq_iff_eq]
    omega
  · rw [List.filter_eq_nil_iff]
    intro r hr
    have h1 := hcats r hr
    simp only [beq_iff_eq]
    omega
  · rw [List.filter_eq_nil_iff]
    intro r hr
    have h1 := hsizes r hr
    simp only [beq_iff_eq]
    omega

/-! ## Concrete data for witnesses and counterexamples -/

/-- A concrete product payload whose brand, category and size names all
exist in the concrete database below. -/
def wProd : ProductEntity :=
  { id := 10, storeId := 7, brand := "Nike", categories := ["Shoes"], sizes := [],
    name := "Air", color := "red", currentStock := 5, reorderPoint := 1, minimum := 1,
    price := 100, discountPercentage := 0, description := "d", url_img := "u" }

/-- The persisted row of product 10 before the update. -/
def wRow : ProductRow :=
  { id := 10, storeId := 7, brandId := 1, name := "Old", color := "blue", currentStock := 2,
    reorderPoint := 2, minimum := 2, price := 50, discountPercentage := 5,
    description := "o", url_img := "ou", status := 1 }

/-- A concrete database with one brand, one category, one size, one
store and one product carrying no associations yet. -/
def wDB : DB :=
  { brands := [{ id := 1, name := "Nike" }], categories := [{ id := 2, name := "Shoes" }],
    sizes := [{ id := 3, name := "M" }], products := [wRow], productCategories := [],
    productSizes := [], stores := [{ id := 7, name := "S", managerId := 1, status := 1 }],
    storeColors := [], nextId := 20 }

/-- The row of product 10 after the scalar update of wProd. -/
def wRowUpd : ProductRow :=
  { id := 10, storeId := 7, brandId := 1, name := "Air", color := "red", currentStock := 5,
    reorderPoint := 1, minimum := 1, price := 100, discountPercentage := 0,
    description := "d", url_img := "u", status := 1 }

/-- The result of updateProduct wProd wDB: scalar row updated, one
delete plus one insert on the category join table, no size writes. -/
def wST : UpdRes :=
  { db := { wDB with products := [wRowUpd], productCategories := [{ productId := 10, refId := 2 }] },
    catWrites := 2, sizeWrites := 0 }

/-- The payload of wProd with a category name matching zero rows. -/
def wBadProd : ProductEntity := { wProd with categories := ["Nope"] }

/-- The concrete database with an empty brand table. -/
def wDB9 : DB := { wDB with brands := [] }

/-- The payload of wProd with a storeId different from the persisted
store of product 10. -/
def wProd5 : ProductEntity := { wProd with storeId := 99 }

/-- C4 (defect witnessed at a concrete failing input): on the error
path of both product create and product update the controller issues
two terminal calls on the open unit-of-work scope — rollbackTransaction
followed by an unconditional commitTransaction — so a commit is issued
after a rollback of the same scope, contradicting the contract that
exactly one terminal call closes a scope. -/
theorem c4_error_path_issues_rollback_then_commit :
    (post [wBadProd] 1 wDB).trace = [TxEvent.beginTx, TxEvent.rollbackTx, TxEvent.commitTx] ∧
    (updateCtrl wBadProd wDB).trace = [TxEvent.beginTx, TxEvent.rollbackTx, TxEvent.commitTx] ∧
    (post [wBadProd] 1 wDB).out = Except.error (Err.refNotFound "Invalid category") := by
  refine ⟨by decide, by decide, by decide⟩

/-- C9 (defect witnessed at a concrete failing input): a product create
whose brand name matches zero Brand rows does not fail with the
reference-lookup error of the dead guard (`if (!brandName) throw` never
fires since an array is truthy even when empty) but with an undefined
access on `brandName[0].id`; no product row is inserted — the database
is unchanged and no row carries the id the product would have
received. -/
theorem c9_missing_brand_fails_with_undefined_access :
    (post [wProd] 1 wDB9).out = Except.error (Err.undefinedAccess "brandName[0].id") ∧
    (∀ m, (post [wProd] 1 wDB9).out ≠ Except.error (Err.refNotFound m)) ∧
    (post [wProd] 1 wDB9).db = wDB9 ∧
    (post [wProd] 1 wDB9).db.products.filter (fun r => r.id == 20) = [] := by
  refine ⟨by decide, ?_, by decide, by decide⟩
  intro m h
  have h2 : (post [wProd] 1 wDB9).out = Except.error (Err.undefinedAccess "brandName[0].id") := by
    decide
  rw [h2] at h
  cases h

/-- Witness for C1 at a concrete input: updating product 10 with
category list consisting of Shoes, while no category row is persisted,
takes the changed branch and rebuilds the join rows. -/
theorem c1_witness :
    updateProduct wProd wDB = Except.ok wST ∧
    seqChanged wProd.categories (catNamesOf wDB wProd.id) = true ∧
    (∃ ids, resolveAll wDB.categories wProd.categories = some ids ∧
      wST.db.productCategories = wDB.productCategories.filter (fun r => r.productId != wProd.id) ++
        ids.map (fun i => { productId := wProd.id, refId := i })) :=
  ⟨by decide, by decide,
    (c1_update_rebuilds_changed_associations wProd wDB).1.1 wST (by decide) (by decide)⟩

/-- Witness for C2 at a concrete input: the second identical update is
a no-op with zero join-table writes. -/
theorem c2_witness :
    (wDB.categories.map (fun r => r.id)).Nodup ∧
    (wDB.sizes.map (fun r => r.id)).Nodup ∧
    updateProduct wProd wDB = Except.ok wST ∧
    updateProduct wProd wST.db = Except.ok { db := wST.db, catWrites := 0, sizeWrites := 0 } :=
  ⟨by decide, by decide, by decide,
    c2_reconciliation_idempotent wProd wDB wST (by decide) (by decide) (by decide)⟩

/-- Witness for C3 at a concrete input: a create whose category
resolution fails leaves the database exactly as before. -/
theorem c3_witness :
    (post [wBadProd] 1 wDB).out = Except.error (Err.refNotFound "Invalid category") ∧
    (post [wBadProd] 1 wDB).db = wDB ∧
    ((post [wBadProd] 1 wDB).db.products.filter (fun r => r.id == 20) = [] ∧
     (post [wBadProd] 1 wDB).db.productCategories.filter (fun r => r.productId == 20) = [] ∧
     (post [wBadProd] 1 wDB).db.productSizes.filter (fun r => r.productId == 20) = []) := by
  have h := c3_create_error_leaves_no_rows [wBadProd] 1 wDB (Err.refNotFound "Invalid category")
    (by decide) (by decide) (by decide) (by decide)
  exact ⟨by decide, h.1, h.2 20 (by decide)⟩

/-- Witness for C5 at a concrete input: an update payload carrying
storeId 99 while the row belongs to store 7 succeeds and keeps the row
in store 7 with all payload scalars applied. -/
theorem c5_witness :
    updateProduct wProd5 wDB = Except.ok wST ∧
    wProd5.storeId ≠ wRow.storeId ∧
    (∃ rr, rr ∈ wST.db.products ∧ rr.id = wProd5.id ∧ rr.storeId = wRow.storeId ∧
      rr.status = wRow.status ∧ rr.name = wProd5.name ∧ rr.color = wProd5.color ∧
      rr.currentStock = wProd5.currentStock ∧ rr.reorderPoint = wProd5.reorderPoint ∧
      rr.minimum = wProd5.minimum ∧ rr.price = wProd5.price ∧
      rr.discountPercentage = wProd5.discountPercentage ∧ rr.description = wProd5.description ∧
      rr.url_img = wProd5.url_img) :=
  ⟨by decide, by decide,
    c5_storeid_stripped_scalars_applied wProd5 wDB wST wRow (by decide) (by decide) (by decide)
      (by decide)⟩

/-! ## Store color lemmas -/

theorem colorType_beq_pp : (ColorType.PRIMARY == ColorType.PRIMARY) = true := rfl

theorem colorType_beq_ps : (ColorType.PRIMARY == ColorType.SECONDARY) = false := rfl

theorem colorType_beq_sp : (ColorType.SECONDARY == ColorType.PRIMARY) = false := rfl

theorem colorType_beq_ss : (ColorType.SECONDARY == ColorType.SECONDARY) = true := rfl

/-- C6: a store-create whose payload omits the colors object inserts
exactly two StoreColor rows foreign-keyed to the new store id, one
PRIMARY with hue, saturation and lightness 12 and one SECONDARY with
hue, saturation and lightness 240 (the fixed defaults), provided no
pre-existing color row already references the fresh id. -/
theorem c6_default_colors_inserted (p : StoreCreate) (db : DB)
    (hnone : p.colors = none)
    (hfresh : ∀ c, c ∈ db.storeColors → c.storeId ≠ db.nextId) :
    (createStore p db).1.storeColors.filter (fun c => c.storeId == (createStore p db).2) =
      [{ id := db.nextId + 1, storeId := db.nextId, type := ColorType.PRIMARY,
         hue := 12, sat := 12, light := 12 },
       { id := db.nextId + 2, storeId := db.nextId, type := ColorType.SECONDARY,
         hue := 240, sat := 240, light := 240 }] := by
  have hold : db.storeColors.filter (fun c => c.storeId == db.nextId) = [] := by
    rw [List.filter_eq_nil_iff]
    intro c hc
    simp only [beq_iff_eq]
    exact hfresh c hc
  simp [createStore, hnone, defaultColors, List.filter_append, hold]

theorem typeCount_updateStoreColor (db : DB) (cid : Nat) (hp : HSLPayload)
    (sid : Nat) (t : ColorType) :
    typeCount (updateStoreColor db cid hp) sid t = typeCount db sid t := by
  unfold typeCount updateStoreColor
  rw [List.filter_map, List.length_map]
  congr 1
  rw [List.filter_congr]
  intro c _
  cases h : c.id == cid
  · simp [Function.comp, h]
  · simp [Function.comp, h]

theorem storeIds_updateStoreColor (db : DB) (cid : Nat) (hp : HSLPayload) :
    (updateStoreColor db cid hp).storeColors.map (fun c => c.storeId) =
      db.storeColors.map (fun c => c.storeId) := by
  unfold updateStoreColor
  rw [List.map_map]
  apply List.map_congr_left
  intro c _
  cases h : c.id == cid
  · simp [Function.comp, h]
  · simp [Function.comp, h]

theorem nextId_updateStoreColor (db : DB) (cid : Nat) (hp : HSLPayload) :
    (updateStoreColor db cid hp).nextId = db.nextId := rfl

theorem typeCount_colorStep (sid0 : Nat) (ty : ColorType) (msg : String)
    (h : Option HSLPayload) (db : DB) (sid : Nat) (t : ColorType) :
    typeCount (colorStep sid0 ty msg h db).2 sid t = typeCount db sid t := by
  rcases h with _ | hp
  · rfl
  · unfold colorStep
    rcases hf : db.storeColors.filter (fun c => c.storeId == sid0 && c.type == ty) with _ | ⟨c, cs⟩
    · simp only [hf]
    · simp only [hf]
      exact typeCount_updateStoreColor db c.id hp sid t

theorem storeIds_colorStep (sid0 : Nat) (ty : ColorType) (msg : String)
    (h : Option HSLPayload) (db : DB) :
    (colorStep sid0 ty msg h db).2.storeColors.map (fun c => c.storeId) =
      db.storeColors.map (fun c => c.storeId) := by
  rcases h with _ | hp
  · rfl
  · unfold colorStep
    rcases hf : db.storeColors.filter (fun c => c.storeId == sid0 && c.type == ty) with _ | ⟨c, cs⟩
    · simp only [hf]
    · simp only [hf]
      exact storeIds_updateStoreColor db c.id hp

theorem nextId_colorStep (sid0 : Nat) (ty : ColorType) (msg : String)
    (h : Option HSLPayload) (db : DB) :
    (colorStep sid0 ty msg h db).2.nextId = db.nextId := by
  rcases h with _ | hp
  · rfl
  · unfold colorStep
    rcases hf : db.storeColors.filter (fun c => c.storeId == sid0 && c.type == ty) with _ | ⟨c, cs⟩
    · simp only [hf]
    · simp only [hf]
      rfl


theorem typeCount_storeScalarApplied (db : DB) (sid0 : Nat) (p : StoreUpdate)
    (sid : Nat) (t : ColorType) :
    typeCount (storeScalarApplied db sid0 p) sid t = typeCount db sid t := rfl

theorem typeCount_updateStore (p : StoreUpdate) (mid : Nat) (db : DB)
    (sid : Nat) (t : ColorType) :
    typeCount (updateStore p mid db).db sid t = typeCount db sid t := by
  unfold updateStore
  rcases hsf : db.stores.filter (fun x => x.managerId == mid) with _ | ⟨s, ss⟩
  · simp only [hsf]
  · simp only [hsf]
    rcases hpc : p.colors with _ | cols
    · simp only [hpc]
      exact typeCount_storeScalarApplied db s.id p sid t
    · simp only [hpc]
      rcases hc1 : colorStep s.id ColorType.PRIMARY "storeColor PRIMARY [0].id" cols.primary
        (storeScalarApplied db s.id p) with ⟨e1, db2⟩
      have h1 : typeCount db2 sid t = typeCount db sid t := by
        have hx := typeCount_colorStep s.id ColorType.PRIMARY "storeColor PRIMARY [0].id"
          cols.primary (storeScalarApplied db s.id p) sid t
        rw [hc1] at hx
        exact hx
      rcases e1 with _ | er
      · rcases hc2 : colorStep s.id ColorType.SECONDARY "storeColor SECONDARY [0].id"
          cols.secondary db2 with ⟨e2, db3⟩
        have h2 : typeCount db3 sid t = typeCount db2 sid t := by
          have hx := typeCount_colorStep s.id ColorType.SECONDARY "storeColor SECONDARY [0].id"
            cols.secondary db2 sid t
          rw [hc2] at hx
          exact hx
        simp only [hc1, hc2]
        rw [h2, h1]
      · simp only [hc1]
        exact h1

theorem storeIds_updateStore (p : StoreUpdate) (mid : Nat) (db : DB) :
    (updateStore p mid db).db.storeColors.map (fun c => c.storeId) =
      db.storeColors.map (fun c => c.storeId) := by
  unfold updateStore
  rcases hsf : db.stores.filter (fun x => x.managerId == mid) with _ | ⟨s, ss⟩
  · simp only [hsf]
  · simp only [hsf]
    rcases hpc : p.colors with _ | cols
    · simp only [hpc]
      rfl
    · simp only [hpc]
      rcases hc1 : colorStep s.id ColorType.PRIMARY "storeColor PRIMARY [0].id" cols.primary
        (storeScalarApplied db s.id p) with ⟨e1, db2⟩
      have h1 : db2.storeColors.map (fun c => c.storeId) =
          db.storeColors.map (fun c => c.storeId) := by
        have hx := storeIds_colorStep s.id ColorType.PRIMARY "storeColor PRIMARY [0].id"
          cols.primary (storeScalarApplied db s.id p)
        rw [hc1] at hx
        exact hx
      rcases e1 with _ | er
      · rcases hc2 : colorStep s.id ColorType.SECONDARY "storeColor SECONDARY [0].id"
          cols.secondary db2 with ⟨e2, db3⟩
        have h2 : db3.storeColors.map (fun c => c.storeId) =
            db2.storeColors.map (fun c => c.storeId) := by
          have hx := storeIds_colorStep s.id ColorType.SECONDARY "storeColor SECONDARY [0].id"
            cols.secondary db2
          rw [hc2] at hx
          exact hx
        simp only [hc1, hc2]
        rw [h2, h1]
      · simp only [hc1]
        exact h1

theorem nextId_updateStore (p : StoreUpdate) (mid : Nat) (db : DB) :
    (updateStore p mid db).db.nextId = db.nextId := by
  unfold updateStore
  rcases hsf : db.stores.filter (fun x => x.managerId == mid) with _ | ⟨s, ss⟩
  · simp only [hsf]
  · simp only [hsf]
    rcases hpc : p.colors with _ | cols
    · simp only [hpc]
      rfl
    · simp only [hpc]
      rcases hc1 : colorStep s.id ColorType.PRIMARY "storeColor PRIMARY [0].id" cols.primary
        (storeScalarApplied db s.id p) with ⟨e1, db2⟩
      have h1 : db2.nextId = db.nextId := by
        have hx := nextId_colorStep s.id ColorType.PRIMARY "storeColor PRIMARY [0].id"
          cols.primary (storeScalarApplied db s.id p)
        rw [hc1] at hx
        exact hx
      rcases e1 with _ | er
      · rcases hc2 : colorStep s.id ColorType.SECONDARY "storeColor SECONDARY [0].id"
          cols.secondary db2 with ⟨e2, db3⟩
        have h2 : db3.nextId = db2.nextId := by
          have hx := nextId_colorStep s.id ColorType.SECONDARY "storeColor SECONDARY [0].id"
            cols.secondary db2
          rw [hc2] at hx
          exact hx
        simp only [hc1, hc2]
        rw [h2, h1]
      · simp only [hc1]
        exact h1

theorem storeColors_createStore (p : StoreCreate) (db : DB) :
    (createStore p db).1.storeColors =
      db.storeColors ++
        [{ id := db.nextId + 1, storeId := db.nextId, type := ColorType.PRIMARY,
           hue := (p.colors.getD defaultColors).primary.hue,
           sat := (p.colors.getD defaultColors).primary.sat,
           light := (p.colors.getD defaultColors).primary.light },
         { id := db.nextId + 2, storeId := db.nextId, type := ColorType.SECONDARY,
           hue := (p.colors.getD defaultColors).secondary.hue,
           sat := (p.colors.getD defaultColors).secondary.sat,
           light := (p.colors.getD defaultColors).secondary.light }] := by
  simp [createStore]

theorem nextId_createStore (p : StoreCreate) (db : DB) :
    (createStore p db).1.nextId = db.nextId + 3 := by
  simp [createStore]

theorem typeCount_createStore_other (p : StoreCreate) (db : DB) (sid : Nat) (t : ColorType)
    (hne : sid ≠ db.nextId) :
    typeCount (createStore p db).1 sid t = typeCount db sid t := by
  unfold typeCount
  rw [storeColors_createStore, List.filter_append]
  have hnil : List.filter (fun c => c.storeId == sid && c.type == t)
      [({ id := db.nextId + 1, storeId := db.nextId, type := ColorType.PRIMARY,
          hue := (p.colors.getD defaultColors).primary.hue,
          sat := (p.colors.getD defaultColors).primary.sat,
          light := (p.colors.getD defaultColors).primary.light } : StoreColorRow),
        { id := db.nextId + 2, storeId := db.nextId, type := ColorType.SECONDARY,
          hue := (p.colors.getD defaultColors).secondary.hue,
          sat := (p.colors.getD defaultColors).secondary.sat,
          light := (p.colors.getD defaultColors).secondary.light }] = [] := by
    have hne2 : (db.nextId == sid) = false := by
      simp only [beq_eq_false_iff_ne]
      exact fun he => hne he.symm
    simp [List.filter_cons, hne2]
  rw [hnil]
  simp

theorem typeCount_createStore_new (p : StoreCreate) (db : DB) (t : ColorType)
    (hfresh : ColorFresh db) :
    typeCount (createStore p db).1 db.nextId t = 1 := by
  unfold typeCount
  rw [storeColors_createStore, List.filter_append]
  have hold : db.storeColors.filter (fun c => c.storeId == db.nextId && c.type == t) = [] := by
    rw [List.filter_eq_nil_iff]
    intro c hc
    have := hfresh c hc
    cases hsb : c.storeId == db.nextId
    · simp [hsb]
    · exfalso
      rw [beq_iff_eq] at hsb
      omega
  rw [hold]
  rcases t with _ | _
  · simp [List.filter_cons, colorType_beq_pp, colorType_beq_sp]
  · simp [List.filter_cons, colorType_beq_ps, colorType_beq_ss]

theorem colorInv_createStore (p : StoreCreate) (db : DB)
    (hinv : ColorInv db) (hfresh : ColorFresh db) :
    ColorInv (createStore p db).1 := by
  intro sid
  by_cases hs : sid = db.nextId
  · subst hs
    exact Or.inr ⟨typeCount_createStore_new p db ColorType.PRIMARY hfresh,
      typeCount_createStore_new p db ColorType.SECONDARY hfresh⟩
  · rcases hinv sid with ⟨h1, h2⟩ | ⟨h1, h2⟩
    · exact Or.inl ⟨by rw [typeCount_createStore_other p db sid _ hs]; exact h1,
        by rw [typeCount_createStore_other p db sid _ hs]; exact h2⟩
    · exact Or.inr ⟨by rw [typeCount_createStore_other p db sid _ hs]; exact h1,
        by rw [typeCount_createStore_other p db sid _ hs]; exact h2⟩

theorem colorFresh_createStore (p : StoreCreate) (db : DB)
    (hfresh : ColorFresh db) :
    ColorFresh (createStore p db).1 := by
  intro c hc
  rw [storeColors_createStore] at hc
  rw [nextId_createStore]
  rcases List.mem_append.mp hc with hm | hm
  · have := hfresh c hm
    omega
  · rcases List.mem_cons.mp hm with he | hm2
    · subst he
      show db.nextId < db.nextId + 3
      omega
    · rcases List.mem_cons.mp hm2 with he | hm3
      · subst he
        show db.nextId < db.nextId + 3
        omega
      · cases hm3

theorem colorInv_updateStore (p : StoreUpdate) (mid : Nat) (db : DB)
    (hinv : ColorInv db) :
    ColorInv (updateStore p mid db).db := by
  intro sid
  rcases hinv sid with ⟨h1, h2⟩ | ⟨h1, h2⟩
  · exact Or.inl ⟨by rw [typeCount_updateStore]; exact h1,
      by rw [typeCount_updateStore]; exact h2⟩
  · exact Or.inr ⟨by rw [typeCount_updateStore]; exact h1,
      by rw [typeCount_updateStore]; exact h2⟩

theorem colorFresh_updateStore (p : StoreUpdate) (mid : Nat) (db : DB)
    (hfresh : ColorFresh db) :
    ColorFresh (updateStore p mid db).db := by
  intro c hc
  have hmem : c.storeId ∈ (updateStore p mid db).db.storeColors.map (fun x => x.storeId) :=
    List.mem_map_of_mem _ hc
  rw [storeIds_updateStore] at hmem
  rcases List.mem_map.mp hmem with ⟨c0, hc0, he⟩
  rw [nextId_updateStore]
  rw [← he]
  exact hfresh c0 hc0

theorem goodDB_applyStoreOp (op : StoreOp) (db : DB)
    (h : ColorInv db ∧ ColorFresh db) :
    ColorInv (applyStoreOp op db) ∧ ColorFresh (applyStoreOp op db) := by
  cases op with
  | screate p => exact ⟨colorInv_createStore p db h.1 h.2, colorFresh_createStore p db h.2⟩
  | supdate p mid => exact ⟨colorInv_updateStore p mid db h.1, colorFresh_updateStore p mid db h.2⟩

theorem goodDB_runStoreOps (ops : List StoreOp) :
    ∀ db : DB, ColorInv db ∧ ColorFresh db →
      ColorInv (runStoreOps ops db) ∧ ColorFresh (runStoreOps ops db) := by
  induction ops with
  | nil => intro db h; exact h
  | cons op rest ih =>
    intro db h
    exact ih (applyStoreOp op db) (goodDB_applyStoreOp op db h)

theorem length_filter_storeId_split (l : List StoreColorRow) (sid : Nat) :
    (l.filter (fun c => c.storeId == sid)).length =
      (l.filter (fun c => c.storeId == sid && c.type == ColorType.PRIMARY)).length +
      (l.filter (fun c => c.storeId == sid && c.type == ColorType.SECONDARY)).length := by
  induction l with
  | nil => rfl
  | cons c rest ih =>
    rcases hs : c.storeId == sid with _ | _
    · simp only [List.filter_cons, hs, Bool.false_and, if_neg Bool.false_ne_true]
      exact ih
    · rcases ht : c.type with _ | _
      · simp [List.filter_cons, hs, ht, colorType_beq_pp, colorType_beq_sp]
        omega
      · simp [List.filter_cons, hs, ht, colorType_beq_ps, colorType_beq_ss]
        omega

/-- C7: the store color invariant — starting from a database satisfying
the invariant (and whose color rows reference only already allocated
store ids), after any sequence of store create and store update
operations every store has either exactly 0 or exactly 2 StoreColor
rows, never 1 or 3 or more, with at most one row of type PRIMARY and at
most one of type SECONDARY: create always inserts both rows for a fresh
store id and update only patches existing rows in place. -/
theorem c7_color_invariant (ops : List StoreOp) (db : DB)
    (hinv : ColorInv db) (hfresh : ColorFresh db) :
    ∀ sid : Nat,
      (((runStoreOps ops db).storeColors.filter (fun c => c.storeId == sid)).length = 0 ∨
       ((runStoreOps ops db).storeColors.filter (fun c => c.storeId == sid)).length = 2) ∧
      typeCount (runStoreOps ops db) sid ColorType.PRIMARY ≤ 1 ∧
      typeCount (runStoreOps ops db) sid ColorType.SECONDARY ≤ 1 := by
  intro sid
  have hinv2 := (goodDB_runStoreOps ops db ⟨hinv, hfresh⟩).1 sid
  have hsplit := length_filter_storeId_split (runStoreOps ops db).storeColors sid
  rcases hinv2 with ⟨h1, h2⟩ | ⟨h1, h2⟩
  · refine ⟨Or.inl ?_, ?_, ?_⟩
    · rw [hsplit]
      unfold typeCount at h1 h2
      omega
    · unfold typeCount at h1 ⊢
      omega
    · unfold typeCount at h2 ⊢
      omega
  · refine ⟨Or.inr ?_, ?_, ?_⟩
    · rw [hsplit]
      unfold typeCount at h1 h2
      omega
    · unfold typeCount at h1 ⊢
      omega
    · unfold typeCount at h2 ⊢
      omega

/-- The invariant holds in any database without color rows. -/
theorem colorInv_of_nil (db : DB) (h : db.storeColors = []) : ColorInv db := by
  intro sid
  left
  constructor <;> simp [typeCount, h]

/-- Freshness holds in any database without color rows. -/
theorem colorFresh_of_nil (db : DB) (h : db.storeColors = []) : ColorFresh db := by
  intro c hc
  rw [h] at hc
  cases hc

/-- C8 (amended): a store-color update with a primary or secondary slot
payload present while no StoreColor row of the corresponding type exists
for the resolved store fails with an undefined access on the first
element of the empty result set for that slot (not with an explicit
reference-lookup error) — the secondary slot is reached when the primary
step does not fail first, that is when the primary payload is absent or
its row exists — and no color row is ever created or deleted: every
per-store per-type row count is unchanged on every path of the
operation. -/
theorem c8_missing_color_row_fails_without_insert (p : StoreUpdate) (mid : Nat) (db : DB)
    (s : StoreRow) (ss : List StoreRow)
    (hsf : db.stores.filter (fun x => x.managerId == mid) = s :: ss)
    (cols : ColorPatch) (hpc : p.colors = some cols) :
    ((∀ hsl, cols.primary = some hsl →
        db.storeColors.filter
          (fun c => c.storeId == s.id && c.type == ColorType.PRIMARY) = [] →
        (updateStore p mid db).err =
          some (Err.undefinedAccess "storeColor PRIMARY [0].id")) ∧
     (∀ hsl, cols.secondary = some hsl →
        db.storeColors.filter
          (fun c => c.storeId == s.id && c.type == ColorType.SECONDARY) = [] →
        (cols.primary = none ∨
         ∃ c0 cs0, db.storeColors.filter
           (fun c => c.storeId == s.id && c.type == ColorType.PRIMARY) = c0 :: cs0) →
        (updateStore p mid db).err =
          some (Err.undefinedAccess "storeColor SECONDARY [0].id"))) ∧
    (∀ sid t, typeCount (updateStore p mid db).db sid t = typeCount db sid t) := by
  refine ⟨⟨?_, ?_⟩, ?_⟩
  · intro hsl hprim hnone
    have hx : (storeScalarApplied db s.id p).storeColors.filter
        (fun c => c.storeId == s.id && c.type == ColorType.PRIMARY) = [] := hnone
    have hstep : colorStep s.id ColorType.PRIMARY "storeColor PRIMARY [0].id" cols.primary
        (storeScalarApplied db s.id p) =
        (some (Err.undefinedAccess "storeColor PRIMARY [0].id"), storeScalarApplied db s.id p) := by
      rw [hprim]
      unfold colorStep
      rw [hx]
    simp only [updateStore, hsf, hpc, hstep]
  · intro hsl hsec hnos hcase
    rcases hpm : cols.primary with _ | hsl1
    · have hstep1 : colorStep s.id ColorType.PRIMARY "storeColor PRIMARY [0].id" cols.primary
          (storeScalarApplied db s.id p) = (none, storeScalarApplied db s.id p) := by
        rw [hpm]
        rfl
      have hx2 : (storeScalarApplied db s.id p).storeColors.filter
          (fun c => c.storeId == s.id && c.type == ColorType.SECONDARY) = [] := hnos
      have hstep2 : colorStep s.id ColorType.SECONDARY "storeColor SECONDARY [0].id"
          cols.secondary (storeScalarApplied db s.id p) =
          (some (Err.undefinedAccess "storeColor SECONDARY [0].id"),
            storeScalarApplied db s.id p) := by
        rw [hsec]
        unfold colorStep
        rw [hx2]
      simp only [updateStore, hsf, hpc, hstep1, hstep2]
    · rcases hcase with hnone1 | ⟨c0, cs0, hp0⟩
      · rw [hpm] at hnone1
        cases hnone1
      · have hx1 : (storeScalarApplied db s.id p).storeColors.filter
            (fun c => c.storeId == s.id && c.type == ColorType.PRIMARY) = c0 :: cs0 := hp0
        have hstep1 : colorStep s.id ColorType.PRIMARY "storeColor PRIMARY [0].id" cols.primary
            (storeScalarApplied db s.id p) =
            (none, updateStoreColor (storeScalarApplied db s.id p) c0.id hsl1) := by
          rw [hpm]
          unfold colorStep
          rw [hx1]
        have hcount : typeCount (updateStoreColor (storeScalarApplied db s.id p) c0.id hsl1)
            s.id ColorType.SECONDARY = 0 := by
          rw [typeCount_updateStoreColor]
          show (db.storeColors.filter
            (fun c => c.storeId == s.id && c.type == ColorType.SECONDARY)).length = 0
          rw [hnos]
          rfl
        have hx2 : (updateStoreColor (storeScalarApplied db s.id p) c0.id hsl1).storeColors.filter
            (fun c => c.storeId == s.id && c.type == ColorType.SECONDARY) = [] :=
          List.length_eq_zero.mp hcount
        have hstep2 : colorStep s.id ColorType.SECONDARY "storeColor SECONDARY [0].id"
            cols.secondary (updateStoreColor (storeScalarApplied db s.id p) c0.id hsl1) =
            (some (Err.undefinedAccess "storeColor SECONDARY [0].id"),
              updateStoreColor (storeScalarApplied db s.id p) c0.id hsl1) := by
          rw [hsec]
          unfold colorStep
          rw [hx2]
        simp only [updateStore, hsf, hpc, hstep1, hstep2]
  · intro sid t
    exact typeCount_updateStore p mid db sid t

/-- C10: a store update whose payload omits the colors object writes the
scalar store row first and then fails reading primary of the undefined
colors value, before any color write and outside any transaction scope —
the scalar change persists as a partial write. -/
theorem c10_partial_store_update_persists (p : StoreUpdate) (mid : Nat) (db : DB)
    (s : StoreRow) (ss : List StoreRow)
    (hsf : db.stores.filter (fun x => x.managerId == mid) = s :: ss)
    (hnone : p.colors = none) :
    (updateStore p mid db).err = some (Err.undefinedAccess "colors.primary") ∧
    (updateStore p mid db).db = storeScalarApplied db s.id p ∧
    (updateStore p mid db).db.storeColors = db.storeColors ∧
    (updateStore p mid db).trace = [] := by
  simp only [updateStore, hsf, hnone]
  exact ⟨trivial, trivial, rfl, trivial⟩

/-- The concrete store-create payload without colors. -/
def wSC : StoreCreate := { name := "N", managerId := 3, colors := none }

/-- The concrete store-update payload without a colors object. -/
def wSU10 : StoreUpdate := { name := "NN", colors := none }

/-- The concrete store-update payload carrying a primary color patch. -/
def wSU8 : StoreUpdate :=
  { name := "NN",
    colors := some { primary := some { hue := 1, sat := 2, light := 3 }, secondary := none } }

/-- C8 as frozen is false on the code: at a concrete input with no
PRIMARY color row for the store, the update fails with the undefined
access of the unguarded index, which is not a reference-lookup error of
any message. -/
theorem c8_counterexample :
    (updateStore wSU8 1 wDB).err = some (Err.undefinedAccess "storeColor PRIMARY [0].id") ∧
    (∀ m, (updateStore wSU8 1 wDB).err ≠ some (Err.refNotFound m)) ∧
    (updateStore wSU8 1 wDB).db.storeColors = [] := by
  refine ⟨by decide, ?_, by decide⟩
  intro m h
  have h2 : (updateStore wSU8 1 wDB).err =
      some (Err.undefinedAccess "storeColor PRIMARY [0].id") := by decide
  rw [h2] at h
  cases h

/-- Witness for C6 at a concrete input: creating a store with no colors
payload yields exactly the two default rows for the fresh store id. -/
theorem c6_witness :
    wSC.colors = none ∧
    (createStore wSC wDB).1.storeColors.filter
        (fun c => c.storeId == (createStore wSC wDB).2) =
      [{ id := 21, storeId := 20, type := ColorType.PRIMARY, hue := 12, sat := 12, light := 12 },
       { id := 22, storeId := 20, type := ColorType.SECONDARY,
         hue := 240, sat := 240, light := 240 }] :=
  ⟨rfl, c6_default_colors_inserted wSC wDB rfl (by decide)⟩

/-- Witness for C7 at a concrete input: after a create followed by a
color update the new store has exactly two color rows, one per type. -/
theorem c7_witness :
    (((runStoreOps [StoreOp.screate wSC, StoreOp.supdate wSU8 1] wDB).storeColors.filter
        (fun c => c.storeId == 20)).length = 0 ∨
     ((runStoreOps [StoreOp.screate wSC, StoreOp.supdate wSU8 1] wDB).storeColors.filter
        (fun c => c.storeId == 20)).length = 2) ∧
    typeCount (runStoreOps [StoreOp.screate wSC, StoreOp.supdate wSU8 1] wDB) 20
      ColorType.PRIMARY ≤ 1 ∧
    typeCount (runStoreOps [StoreOp.screate wSC, StoreOp.supdate wSU8 1] wDB) 20
      ColorType.SECONDARY ≤ 1 :=
  c7_color_invariant [StoreOp.screate wSC, StoreOp.supdate wSU8 1] wDB
    (colorInv_of_nil wDB rfl) (colorFresh_of_nil wDB rfl) 20

/-- The concrete store-update payload carrying only a secondary color
patch. -/
def wSU8b : StoreUpdate :=
  { name := "NN",
    colors := some { primary := none, secondary := some { hue := 4, sat := 5, light := 6 } } }

/-- Witness for the amended C8 at concrete inputs: a primary-only patch
fails on the missing PRIMARY row, a secondary-only patch fails on the
missing SECONDARY row, and the per-store per-type row counts are
unchanged. -/
theorem c8_witness :
    wDB.stores.filter (fun x => x.managerId == 1) =
      [{ id := 7, name := "S", managerId := 1, status := 1 }] ∧
    (updateStore wSU8 1 wDB).err = some (Err.undefinedAccess "storeColor PRIMARY [0].id") ∧
    (updateStore wSU8b 1 wDB).err = some (Err.undefinedAccess "storeColor SECONDARY [0].id") ∧
    typeCount (updateStore wSU8 1 wDB).db 7 ColorType.PRIMARY =
      typeCount wDB 7 ColorType.PRIMARY :=
  ⟨by decide,
    (c8_missing_color_row_fails_without_insert wSU8 1 wDB
      { id := 7, name := "S", managerId := 1, status := 1 } [] (by decide)
      { primary := some { hue := 1, sat := 2, light := 3 }, secondary := none } rfl).1.1
      { hue := 1, sat := 2, light := 3 } rfl (by decide),
    (c8_missing_color_row_fails_without_insert wSU8b 1 wDB
      { id := 7, name := "S", managerId := 1, status := 1 } [] (by decide)
      { primary := none, secondary := some { hue := 4, sat := 5, light := 6 } } rfl).1.2
      { hue := 4, sat := 5, light := 6 } rfl (by decide) (Or.inl rfl),
    (c8_missing_color_row_fails_without_insert wSU8 1 wDB
      { id := 7, name := "S", managerId := 1, status := 1 } [] (by decide)
      { primary := some { hue := 1, sat := 2, light := 3 }, secondary := none } rfl).2
      7 ColorType.PRIMARY⟩

/-- Witness for C10 at a concrete input: the scalar name change to NN
persists while the operation fails on the missing colors object. -/
theorem c10_witness :
    wSU10.colors = none ∧
    (updateStore wSU10 1 wDB).db.stores =
      [{ id := 7, name := "NN", managerId := 1, status := 1 }] ∧
    ((updateStore wSU10 1 wDB).err = some (Err.undefinedAccess "colors.primary") ∧
     (updateStore wSU10 1 wDB).db = storeScalarApplied wDB 7 wSU10 ∧
     (updateStore wSU10 1 wDB).db.storeColors = wDB.storeColors ∧
     (updateStore wSU10 1 wDB).trace = []) :=
  ⟨rfl, by decide,
    c10_partial_store_update_persists wSU10 1 wDB
      { id := 7, name := "S", managerId := 1, status := 1 } [] (by decide) rfl⟩
